import Mathlib

/-!
Shallow embedding of the Blockly core block/workspace engine
(src/core/block.js, src/unnamed/part_000 = workspace.js), together with
theorems settling the specification claims about it.

Each claim is served by a small state model translated from the source
function the claim names.  Parts of the repository that the claims need but
that are not present under src/ (Blockly.Connection methods, Blockly.Events
globals, Blockly.utils.genUid) are modelled from the specification and marked
as such in their doc comments.
-/

/- ===================================================================
   C1: output connection vs previous connection on one block
   (Blockly.Block constructor lines 75-83, setPreviousStatement lines
   852-872, setOutput lines 903-922 of src/core/block.js)
   =================================================================== -/

/-- One structural connection of a block: its compatibility filter
(`check = none` accepts any type, mirroring a null `check_` list) and
whether it is currently attached to an opposite connection. -/
structure Conn1 where
  check : Option (List String)
  connected : Bool
deriving DecidableEq, Repr

/-- The three structural connection slots of a `Blockly.Block`.  The
constructor (src/core/block.js lines 75-83) initialises all three to null. -/
structure Block1 where
  outputConnection : Option Conn1
  previousConnection : Option Conn1
  nextConnection : Option Conn1
deriving DecidableEq, Repr

/-- A freshly constructed block: `outputConnection`, `nextConnection` and
`previousConnection` are all null (src/core/block.js lines 75-83). -/
def Block1.fresh : Block1 := ⟨none, none, none⟩

/-- Translation of `Blockly.Block.prototype.setPreviousStatement`
(src/core/block.js lines 852-872).  `goog.asserts.assert` failures are
modelled as `Except.error`.  The `check` argument is the already-resolved
value of `opt_check` (undefined resolved to null).  When a previous
connection already exists, `setCheck` merely replaces its filter here;
severing an incompatible attached pair (Connection.setCheck, not under
src/) could additionally reset `connected`, which the C1 claim does not
observe, so the flag is carried unchanged. -/
def setPreviousStatement (b : Block1) (newBoolean : Bool)
    (check : Option (List String)) : Except String Block1 :=
  if newBoolean then
    match b.previousConnection with
    | none =>
        if b.outputConnection.isSome then
          .error "Remove output connection prior to adding previous connection."
        else
          .ok { b with previousConnection := some ⟨check, false⟩ }
    | some c =>
        .ok { b with previousConnection := some { c with check := check } }
  else
    match b.previousConnection with
    | none => .ok b
    | some c =>
        if c.connected then
          .error "Must disconnect previous statement before removing connection."
        else
          .ok { b with previousConnection := none }

/-- Translation of `Blockly.Block.prototype.setOutput`
(src/core/block.js lines 903-922), symmetric to `setPreviousStatement`. -/
def setOutput (b : Block1) (newBoolean : Bool)
    (check : Option (List String)) : Except String Block1 :=
  if newBoolean then
    match b.outputConnection with
    | none =>
        if b.previousConnection.isSome then
          .error "Remove previous connection prior to adding output connection."
        else
          .ok { b with outputConnection := some ⟨check, false⟩ }
    | some c =>
        .ok { b with outputConnection := some { c with check := check } }
  else
    match b.outputConnection with
    | none => .ok b
    | some c =>
        if c.connected then
          .error "Must disconnect output value before removing connection."
        else
          .ok { b with outputConnection := none }

/-- The claim's invariant as stated: exactly one of `outputConnection` and
`previousConnection` is non-null. -/
def exactlyOneSuperior (b : Block1) : Prop :=
  b.outputConnection.isSome ≠ b.previousConnection.isSome

instance (b : Block1) : Decidable (exactlyOneSuperior b) := by
  unfold exactlyOneSuperior; infer_instance

/-- The invariant the code actually maintains: never both non-null. -/
def atMostOneSuperior (b : Block1) : Prop :=
  ¬ (b.outputConnection.isSome ∧ b.previousConnection.isSome)

instance (b : Block1) : Decidable (atMostOneSuperior b) := by
  unfold atMostOneSuperior; infer_instance

/- ===================================================================
   C2: unplug with stack healing
   (Blockly.Block.prototype.unplug, src/core/block.js lines 345-370)
   =================================================================== -/

/-- Which of the three structural slots of a block a connection lives in. -/
inductive Slot where
  | out
  | prev
  | next
deriving DecidableEq, Repr

/-- A reference to a structural connection: owning block id and slot. -/
abbrev CRef := Nat × Slot

/-- A connection in the heap model for C2: compatibility filter plus the
opposite connection currently targeted (`targetConnection`), if any. -/
structure Conn2 where
  check : Option (List String)
  target : Option CRef
deriving DecidableEq, Repr

/-- A block in the heap model for C2: just its three structural slots. -/
structure Blk2 where
  outputConnection : Option Conn2
  previousConnection : Option Conn2
  nextConnection : Option Conn2
deriving DecidableEq, Repr

/-- The heap: block ids are positions in the list. -/
abbrev St2 := List Blk2

/-- Read a connection out of the heap. -/
def getConn (s : St2) (r : CRef) : Option Conn2 :=
  (s[r.1]?).bind fun b =>
    match r.2 with
    | .out => b.outputConnection
    | .prev => b.previousConnection
    | .next => b.nextConnection

/-- Overwrite the target of the connection at `r` (no-op when the block or
the slot does not exist). -/
def setTarget (s : St2) (r : CRef) (t : Option CRef) : St2 :=
  match s[r.1]? with
  | none => s
  | some b =>
    let b' :=
      match r.2 with
      | .out =>
          { b with outputConnection := b.outputConnection.map fun c => { c with target := t } }
      | .prev =>
          { b with previousConnection := b.previousConnection.map fun c => { c with target := t } }
      | .next =>
          { b with nextConnection := b.nextConnection.map fun c => { c with target := t } }
    s.set r.1 b'

/-- Modelled from the spec: `Blockly.Connection.prototype.disconnect` is not
under src/.  Per section 4.2, disconnect is a no-op when not connected and
otherwise clears `target` on both sides symmetrically (the reparenting side
effect touches only parent/children bookkeeping, which this claim does not
observe). -/
def disconnectC (s : St2) (r : CRef) : St2 :=
  match (getConn s r).bind (·.target) with
  | none => s
  | some r2 => setTarget (setTarget s r none) r2 none

/-- Modelled from the spec: `Blockly.Connection.prototype.checkType_` is not
under src/.  Per section 4.2, two ends are type-compatible when either
filter is null (accepts any type) or the two filter lists intersect. -/
def checkTypeB : Option (List String) → Option (List String) → Bool
  | none, _ => true
  | _, none => true
  | some l1, some l2 => l1.any (fun t => l2.contains t)

/-- Modelled from the spec: `Blockly.Connection.prototype.connect` is not
under src/.  Per section 4.2, on success it sets `target` symmetrically on
both sides.  Its kind/type validation is performed by the one call site in
`unplug`, which joins a statement-next end to a statement-prev end only
after `checkTypeB` succeeded. -/
def connectC (s : St2) (r1 r2 : CRef) : St2 :=
  setTarget (setTarget s r1 (some r2)) r2 (some r1)

/-- Translation of `Blockly.Block.prototype.unplug`
(src/core/block.js lines 345-370) over the C2 heap.  `bid` is the receiver
block (`this`); the `none` branch of the outer match is unreachable in the
source, where the receiver always exists. -/
def unplug (s : St2) (bid : Nat) (healStack : Bool) : St2 :=
  match s[bid]? with
  | none => s
  | some b =>
    match b.outputConnection with
    | some oc =>
        if oc.target.isSome then disconnectC s (bid, Slot.out) else s
    | none =>
      match b.previousConnection with
      | none => s
      | some pc =>
        let previousTarget : Option CRef := pc.target
        let s1 := if pc.target.isSome then disconnectC s (bid, Slot.prev) else s
        let nextTgt : Option CRef :=
          ((s1[bid]?).bind (·.nextConnection)).bind (·.target)
        match healStack, nextTgt with
        | true, some nt =>
          let s2 := disconnectC s1 nt
          match previousTarget with
          | some pt =>
            if checkTypeB ((getConn s2 pt).bind (·.check))
                ((getConn s2 nt).bind (·.check)) then
              connectC s2 pt nt
            else s2
          | none => s2
        | _, _ => s1

/-- The three-block stack P(0) → Q(1) → R(2) joined via previous/next
connections, with the four relevant compatibility filters as parameters:
`pn` on P's next, `qp` on Q's previous, `qn` on Q's next, `rp` on R's
previous. -/
def stack3 (pn qp qn rp : Option (List String)) : St2 :=
  [ ⟨none, none, some ⟨pn, some (1, Slot.prev)⟩⟩,
    ⟨none, some ⟨qp, some (0, Slot.next)⟩, some ⟨qn, some (2, Slot.prev)⟩⟩,
    ⟨none, some ⟨rp, some (1, Slot.next)⟩, none⟩ ]

/- ===================================================================
   C3: Workspace.prototype.undo
   (src/unnamed/part_000 lines 364-390)
   =================================================================== -/

/-- An undo-stack event for C3: its transaction group id (empty string for no
group) and a tag distinguishing events. -/
structure Ev3 where
  group : String
  tag : Nat
deriving DecidableEq, Repr

/-- Workspace state for C3: the two event stacks (head = top, i.e. the JS
array end where push/pop operate), the global `Blockly.Events.recordUndo`
flag, and a log of `run` invocations. -/
structure WS3 where
  undoStack : List Ev3
  redoStack : List Ev3
  recordUndo : Bool
  runLog : List (Ev3 × Bool × Bool)
deriving DecidableEq, Repr

/-- Modelled from the spec: `Blockly.Events.Abstract.prototype.run` is
subclass-defined and the subclasses are not under src/.  The claim observes
only that `run(forward)` is invoked for each replayed event while recording
is disabled, so `run` appends to a log the event, the forward flag, and the
`recordUndo` flag in force at call time. -/
def runEvent (w : WS3) (e : Ev3) (forward : Bool) : WS3 :=
  { w with runLog := w.runLog ++ [(e, forward, w.recordUndo)] }

/-- Modelled from the spec: `Blockly.Events.filter` is not under src/.
Section 4.4 describes undo as replaying each event of the popped batch, so
over this model the filter is the identity on the batch. -/
def eventsFilter (events : List Ev3) (_forward : Bool) : List Ev3 := events

/-- The while loop of `undo` (src/unnamed/part_000 lines 373-376): keep
popping while the stack is non-empty and the first popped event's group is
non-empty and equal to the group of the top of the stack.  Returns the
popped batch (in pop order) and the remaining stack. -/
def popSameGroup (grp : String) : List Ev3 → List Ev3 × List Ev3
  | [] => ([], [])
  | e :: rest =>
    if grp ≠ "" ∧ e.group = grp then
      let p := popSameGroup grp rest
      (e :: p.1, p.2)
    else ([], e :: rest)

/-- Translation of `Blockly.Workspace.prototype.undo`
(src/unnamed/part_000 lines 364-390).  Pushing the popped events onto the
opposite stack one by one is a left fold of cons; the try/finally resetting
of `Blockly.Events.recordUndo` to true is the final update. -/
def undoW (w : WS3) (redo : Bool) : WS3 :=
  let inputStack := if redo then w.redoStack else w.undoStack
  match inputStack with
  | [] => w
  | inputEvent :: rest =>
    let p := popSameGroup inputEvent.group rest
    let events := inputEvent :: p.1
    let w1 := if redo then { w with redoStack := p.2 } else { w with undoStack := p.2 }
    let w2 :=
      if redo then
        { w1 with undoStack := events.foldl (fun st e => e :: st) w1.undoStack }
      else
        { w1 with redoStack := events.foldl (fun st e => e :: st) w1.redoStack }
    let events2 := eventsFilter events redo
    let w3 := { w2 with recordUndo := false }
    let w4 := events2.foldl (fun st e => runEvent st e redo) w3
    { w4 with recordUndo := true }

/- ===================================================================
   C4: undo-stack overflow in fireChangeListener
   (src/unnamed/part_000 lines 424-435, MAX_UNDO lines 123-128)
   =================================================================== -/

/-- `Blockly.Workspace.prototype.MAX_UNDO` (src/unnamed/part_000 line 128). -/
def MAX_UNDO : Nat := 1024

/-- An event as seen by `fireChangeListener`: whether it is eligible for the
undo stack, plus a tag. -/
structure Ev4 where
  recUndo : Bool
  tag : Nat
deriving DecidableEq, Repr

/-- Workspace state for C4: the two stacks, head = newest entry (JS array
end). -/
structure WS4 where
  undoStack : List Ev4
  redoStack : List Ev4
deriving DecidableEq, Repr

/-- JS `Array.prototype.unshift` called with zero arguments inserts zero
elements at the front and leaves the array unchanged; this is what
`this.undoStack_.unshift()` at src/unnamed/part_000 line 429 does. -/
def unshiftNoArgs (l : List Ev4) : List Ev4 := l

/-- Translation of the undo-stack bookkeeping of
`Blockly.Workspace.prototype.fireChangeListener`
(src/unnamed/part_000 lines 424-435).  Listener notification has no effect
on the stacks and is omitted. -/
def fireChangeListener (w : WS4) (e : Ev4) : WS4 :=
  if e.recUndo then
    let undo1 := e :: w.undoStack
    { undoStack := if undo1.length > MAX_UNDO then unshiftNoArgs undo1 else undo1
      redoStack := [] }
  else w

/-- Fire `n` undo-eligible events in a row (the driver for the C4 failing
input). -/
def fireN : Nat → WS4 → WS4
  | 0, w => w
  | n + 1, w => fireN n (fireChangeListener w ⟨true, n⟩)

/- ===================================================================
   C5 and C6: Block.prototype.dispose
   (src/core/block.js lines 271-322)
   =================================================================== -/

/-- The externally visible steps of `dispose`, in execution order. -/
inductive Act where
  | unplugStep : Nat → Bool → Act
  | fireDelete : Nat → Act
  | deregister : Nat → Act
  | disposeInputs : Nat → Act
  | disposeConns : Nat → Act
deriving DecidableEq, Repr

/-- A block tree for dispose: id, whether `this.workspace` is still set
(non-null), and `childBlocks_`. -/
inductive Blk5 where
  | node : Nat → Bool → List Blk5 → Blk5
deriving Repr

mutual
/-- Translation of `Blockly.Block.prototype.dispose`
(src/core/block.js lines 271-322) as a trace-producing function.
Arguments: whether `Blockly.Events.isEnabled()` held on entry, the
`healStack` argument, the receiver, and the workspace block registry (list
of registered ids).  Steps, in source order: early return when
`this.workspace` is already null; `unplug(healStack)`; fire the Delete
event when events are enabled; `Blockly.Events.disable()`; remove from the
top-blocks list and from `blockDB_` and null out `this.workspace`
(deregistration); dispose each child (the source loops downward over
`childBlocks_`, i.e. last child first, each child disposed with events
disabled and healStack false); dispose all inputs; dispose the remaining
connections.  A disposed subtree keeps its ids but loses its workspace and
children (each child detached itself from `childBlocks_` while unplugging). -/
def dispose (eventsEnabled healStack : Bool) (b : Blk5) (reg : List Nat) :
    Blk5 × List Nat × List Act :=
  match b with
  | .node i hasWs cs =>
    if hasWs then
      let pre := Act.unplugStep i healStack ::
        ((if eventsEnabled then [Act.fireDelete i] else []) ++ [Act.deregister i])
      let rc := disposeChildren cs (reg.erase i)
      (.node i false [], rc.1, pre ++ rc.2 ++ [Act.disposeInputs i, Act.disposeConns i])
    else (b, reg, [])

/-- The child loop of `dispose`: children are processed from the last list
position to the first, each with events disabled and healStack false. -/
def disposeChildren (bs : List Blk5) (reg : List Nat) : List Nat × List Act :=
  match bs with
  | [] => (reg, [])
  | c :: rest =>
    let r1 := disposeChildren rest reg
    let r2 := dispose false false c r1.1
    (r2.2.1, r1.2 ++ r2.2.2)
end

/-- Whether an action is the firing of a Delete event. -/
def Act.isFireDelete : Act → Bool
  | .fireDelete _ => true
  | _ => false

/-- Position of the first occurrence of an action in a trace. -/
def idxOf (a : Act) (tr : List Act) : Nat := tr.indexOf a

/- ===================================================================
   C7: Block.prototype.setParent
   (src/core/block.js lines 504-534)
   =================================================================== -/

/-- A block for the setParent model: parent back-reference, children list,
and whether the previous/output connections are currently attached. -/
structure Blk7 where
  parentBlock : Option Nat
  childBlocks : List Nat
  prevConnected : Bool
  outConnected : Bool
deriving DecidableEq, Repr

/-- Workspace state for setParent: the block heap (ids are positions) and
the top-blocks list. -/
structure St7 where
  blocks : List Blk7
  topBlocks : List Nat
deriving DecidableEq, Repr

/-- Update the element at position `i` of a list, when present. -/
def updateAt (l : List α) (i : Nat) (f : α → α) : List α :=
  match l[i]? with
  | some a => l.set i (f a)
  | none => l

/-- Update the block with id `i` in the heap. -/
def updateBlk (s : St7) (i : Nat) (f : Blk7 → Blk7) : St7 :=
  { s with blocks := updateAt s.blocks i f }

/-- Translation of `Blockly.Block.prototype.setParent`
(src/core/block.js lines 504-534).  Thrown strings become `Except.error`.
`goog.array.remove` on the old parent's child list removes the first
occurrence when present; `removeTopBlock` (src/unnamed/part_000 lines
160-164) throws when the block is absent from the top-blocks list.  The
source removes the block from the old parent's child list before the
connection checks, so on a throw that removal has already happened; the
`Except.error` result here drops that partial mutation, which no claim
observes.  The `none` branch of the outer match is unreachable in the
source, where the receiver always exists. -/
def setParent (s : St7) (bid : Nat) (newParent : Option Nat) : Except String St7 :=
  match s.blocks[bid]? with
  | none => .error "receiver not in heap"
  | some b =>
    if newParent = b.parentBlock then .ok s
    else
      let afterDetach : Except String St7 :=
        match b.parentBlock with
        | some p =>
          let s' := updateBlk s p fun pb =>
            { pb with childBlocks := pb.childBlocks.erase bid }
          if b.prevConnected then .error "Still connected to previous block."
          else if b.outConnected then .error "Still connected to parent block."
          else .ok (updateBlk s' bid fun bb => { bb with parentBlock := none })
        | none =>
          if bid ∈ s.topBlocks then .ok { s with topBlocks := s.topBlocks.erase bid }
          else .error "Block not present in workspace list of top-most blocks."
      match afterDetach with
      | .error e => .error e
      | .ok s1 =>
        let s2 := updateBlk s1 bid fun bb => { bb with parentBlock := newParent }
        match newParent with
        | some np =>
            .ok (updateBlk s2 np fun pb =>
              { pb with childBlocks := pb.childBlocks ++ [bid] })
        | none => .ok { s2 with topBlocks := s2.topBlocks ++ [bid] }

/- ===================================================================
   C8: Block.prototype.getDescendants
   (src/core/block.js lines 543-549)
   =================================================================== -/

/-- Translation of `Blockly.Block.prototype.getDescendants`
(src/core/block.js lines 543-549): `blocks = [this]`, then for each child
in order append `child.getDescendants()`.  The children relation is a map
from block id to child ids; the `fuel` argument exists only to make the
recursion total in Lean (the source has no such bound), and the C8 theorem
shows the result is fuel-independent once the fuel exceeds a rank bound of
an acyclic relation. -/
def getDescendantsF (children : Nat → List Nat) : Nat → Nat → List Nat
  | 0, _ => []
  | fuel + 1, b => b :: (children b).flatMap (fun c => getDescendantsF children fuel c)

/-- A malformed children relation with a shared child: block 0 has children
1 and 2, and both 1 and 2 have the same child 3. -/
def sharedChildRel : Nat → List Nat
  | 0 => [1, 2]
  | 1 => [3]
  | 2 => [3]
  | _ => []

/- ===================================================================
   C9: lookup misses return a null sentinel
   (getBlockById src/unnamed/part_000 lines 442-444; getField lines
   739-748, getFieldValue lines 828-834, getInput lines 1420-1428,
   getInputTargetBlock lines 1435-1438 of src/core/block.js)
   =================================================================== -/

/-- A field on a block: `name` is undefined (`none`) for unnamed label
fields, and the field carries a value. -/
structure Field9 where
  name : Option String
  value : String
deriving DecidableEq, Repr

/-- An input row: its name, its fields, and its optional connection
(`connTarget = none` when the input owns no connection, `some t` when it
does, with `t` the id of the attached target block, if any). -/
structure Input9 where
  name : String
  fieldRow : List Field9
  connTarget : Option (Option String)
deriving DecidableEq, Repr

/-- A block for the C9 lookups: its input list. -/
structure Block9 where
  inputList : List Input9
deriving DecidableEq, Repr

/-- A workspace for C9: `blockDB_` as an association list from id to an
opaque block tag. -/
structure Workspace9 where
  blockDB : List (String × Nat)
deriving DecidableEq, Repr

/-- Translation of `Blockly.Workspace.prototype.getBlockById`
(src/unnamed/part_000 lines 442-444): `this.blockDB_[id] || null`. -/
def getBlockById (w : Workspace9) (id : String) : Option Nat :=
  (w.blockDB.find? (fun p => p.1 = id)).map (·.2)

/-- Translation of `Blockly.Block.prototype.getField`
(src/core/block.js lines 739-748): scan inputs in order, fields in order,
return the first field whose `name` strictly equals the argument, else
null.  Strict equality (`===`) makes an undefined field name match no
string. -/
def getField (b : Block9) (name : String) : Option Field9 :=
  b.inputList.findSome? fun input =>
    input.fieldRow.find? fun f => f.name = some name

/-- Translation of `Blockly.Block.prototype.getFieldValue`
(src/core/block.js lines 828-834): the named field's value, else null. -/
def getFieldValue (b : Block9) (name : String) : Option String :=
  (getField b name).map (·.value)

/-- Translation of `Blockly.Block.prototype.getInput`
(src/core/block.js lines 1420-1428): first input with the given name, else
null. -/
def getInput (b : Block9) (name : String) : Option Input9 :=
  b.inputList.find? fun input => input.name = name

/-- Translation of `Blockly.Block.prototype.getInputTargetBlock`
(src/core/block.js lines 1435-1438):
`input && input.connection && input.connection.targetBlock()`. -/
def getInputTargetBlock (b : Block9) (name : String) : Option String :=
  match getInput b name with
  | none => none
  | some input =>
    match input.connTarget with
    | none => none
    | some t => t

/- ===================================================================
   C10: Workspace.prototype.newBlock / Block constructor id assignment
   (src/unnamed/part_000 lines 345-347; src/core/block.js lines 56-71
   and 201)
   =================================================================== -/

/-- A workspace for C10: `blockDB_` as an association list (id to opaque
block tag) and the ordered top-blocks list. -/
structure Workspace10 where
  blockDB : List (String × Nat)
  topBlocks : List String
deriving DecidableEq, Repr

/-- `getBlockById` over the C10 workspace. -/
def getBlockById10 (w : Workspace10) (id : String) : Option Nat :=
  (w.blockDB.find? (fun p => p.1 = id)).map (·.2)

/-- Modelled from the spec: `Blockly.utils.genUid` is not under src/; the
spec (section 3) requires only that the generated id be unused.  The model
concatenates every registered id after a seed character, producing a string
strictly longer than every registered id and hence not registered; the C10
theorem proves this freshness. -/
def genUid (w : Workspace10) : String :=
  w.blockDB.foldl (fun acc p => acc ++ p.1) "u"

/-- Translation of `Blockly.Workspace.prototype.newBlock`
(src/unnamed/part_000 lines 345-347) combined with the parts of the
`Blockly.Block` constructor the claim observes (src/core/block.js lines
56-71: id choice via `(opt_id && !workspace.getBlockById(opt_id)) ? opt_id
: Blockly.utils.genUid()`, then `workspace.blockDB_[this.id] = this`; line
201: `workspace.addTopBlock(this)`).  JS truthiness makes an empty-string
`opt_id` take the generated-id branch.  The new block itself is opaque
(tag 0).  Returns the updated workspace and the new block's id. -/
def newBlock (w : Workspace10) (optId : Option String) : Workspace10 × String :=
  let id :=
    match optId with
    | some s => if s ≠ "" ∧ (getBlockById10 w s).isNone then s else genUid w
    | none => genUid w
  ({ blockDB := (id, 0) :: w.blockDB, topBlocks := w.topBlocks ++ [id] }, id)

/- ===================================================================
   Theorems
   =================================================================== -/

/-- C1 counterexample: the claim as stated requires exactly one of
`outputConnection` and `previousConnection` to be non-null; a freshly
constructed block (src/core/block.js lines 75-83) has both null, so the
exactly-one reading fails already at construction. -/
theorem C1_counterexample : ¬ exactlyOneSuperior Block1.fresh := by decide

/-- C1 (amended): at most one of `outputConnection` and
`previousConnection` is non-null, never both; this holds for a freshly
constructed block (both null) and is preserved by every successful
`setPreviousStatement` and `setOutput` (each asserts the other slot is
empty before creating its connection). -/
theorem C1_theorem (b : Block1) (nb : Bool) (chk : Option (List String))
    (b1 b2 : Block1) (h : atMostOneSuperior b) :
    atMostOneSuperior Block1.fresh ∧
    (setPreviousStatement b nb chk = Except.ok b1 → atMostOneSuperior b1) ∧
    (setOutput b nb chk = Except.ok b2 → atMostOneSuperior b2) := by
  unfold atMostOneSuperior at h
  refine ⟨by decide, ?_, ?_⟩
  · intro hok
    unfold setPreviousStatement at hok
    unfold atMostOneSuperior
    cases nb with
    | true =>
      simp only [if_pos] at hok
      cases hp : b.previousConnection with
      | none =>
        rw [hp] at hok
        cases ho : b.outputConnection with
        | none =>
          rw [ho] at hok
          simp at hok
          rw [← hok]
          simp [ho]
        | some oc =>
          rw [ho] at hok
          simp at hok
      | some c =>
        rw [hp] at hok
        simp at hok
        rw [← hok]
        simp
        cases ho : b.outputConnection with
        | none => rfl
        | some oc => exact absurd ⟨by simp [ho], by simp [hp]⟩ h
    | false =>
      simp only [Bool.false_eq_true, if_neg, if_false] at hok
      cases hp : b.previousConnection with
      | none =>
        rw [hp] at hok
        simp at hok
        rw [← hok]
        exact h
      | some c =>
        rw [hp] at hok
        by_cases hcon : c.connected
        · simp [hcon] at hok
        · simp [hcon] at hok
          rw [← hok]
          simp
  · intro hok
    unfold setOutput at hok
    unfold atMostOneSuperior
    cases nb with
    | true =>
      simp only [if_pos] at hok
      cases ho : b.outputConnection with
      | none =>
        rw [ho] at hok
        cases hp : b.previousConnection with
        | none =>
          rw [hp] at hok
          simp at hok
          rw [← hok]
          simp [hp]
        | some pc =>
          rw [hp] at hok
          simp at hok
      | some c =>
        rw [ho] at hok
        simp at hok
        rw [← hok]
        simp
        cases hp : b.previousConnection with
        | none => rfl
        | some pc => exact absurd ⟨by simp [ho], by simp [hp]⟩ h
    | false =>
      simp only [Bool.false_eq_true, if_neg, if_false] at hok
      cases ho : b.outputConnection with
      | none =>
        rw [ho] at hok
        simp at hok
        rw [← hok]
        exact h
      | some c =>
        rw [ho] at hok
        by_cases hcon : c.connected
        · simp [hcon] at hok
        · simp [hcon] at hok
          rw [← hok]
          simp

/-- C1 witness: the amended invariant theorem instantiated at the fresh
block, with the concrete successful results of `setPreviousStatement` and
`setOutput`. -/
theorem C1_theorem_witness :
    atMostOneSuperior Block1.fresh ∧
    (setPreviousStatement Block1.fresh true none
        = Except.ok ⟨none, some ⟨none, false⟩, none⟩ →
      atMostOneSuperior ⟨none, some ⟨none, false⟩, none⟩) ∧
    (setOutput Block1.fresh true none
        = Except.ok ⟨some ⟨none, false⟩, none, none⟩ →
      atMostOneSuperior ⟨some ⟨none, false⟩, none, none⟩) :=
  C1_theorem Block1.fresh true none ⟨none, some ⟨none, false⟩, none⟩
    ⟨some ⟨none, false⟩, none, none⟩ (by decide)

/-- Helper for C4: firing `n` undo-eligible events grows the undo stack by
exactly `n` entries; the overflow branch at src/unnamed/part_000 line 429
discards nothing because `unshift()` takes no arguments. -/
theorem fireN_undoStack_length (n : Nat) (w : WS4) :
    (fireN n w).undoStack.length = n + w.undoStack.length := by
  induction n generalizing w with
  | zero => simp [fireN]
  | succ k ih =>
    show (fireN k (fireChangeListener w ⟨true, k⟩)).undoStack.length
      = k + 1 + w.undoStack.length
    rw [ih]
    simp only [fireChangeListener, unshiftNoArgs, if_pos]
    split <;> simp <;> omega

/-- Helper for C4: `fireChangeListener` never removes an event already on
the undo stack. -/
theorem fireN_mem_undoStack (n : Nat) (w : WS4) (e : Ev4)
    (h : e ∈ w.undoStack) : e ∈ (fireN n w).undoStack := by
  induction n generalizing w with
  | zero => exact h
  | succ k ih =>
    exact ih (fireChangeListener w ⟨true, k⟩)
      (by simp only [fireChangeListener, unshiftNoArgs, if_pos]
          split <;> simp <;> exact Or.inr h)

/-- C4: the claim is right and the code is wrong.  `fireChangeListener`
(src/unnamed/part_000 lines 424-435) intends to discard the oldest entry
when the undo stack would exceed `MAX_UNDO`, but calls
`this.undoStack_.unshift()` with no arguments, which inserts nothing and
removes nothing: after `MAX_UNDO + 1` recorded events the stack holds
`MAX_UNDO + 1` entries and the oldest event (tag `MAX_UNDO`, the first one
fired) is still present. -/
theorem C4_code_bug_eval :
    MAX_UNDO < (fireN (MAX_UNDO + 1) ⟨[], []⟩).undoStack.length ∧
    Ev4.mk true MAX_UNDO ∈ (fireN (MAX_UNDO + 1) ⟨[], []⟩).undoStack := by
  constructor
  · rw [fireN_undoStack_length]; decide
  · have hstep : ∀ (n : Nat) (w : WS4),
        fireN (n + 1) w = fireN n (fireChangeListener w ⟨true, n⟩) :=
      fun n w => rfl
    rw [hstep]
    exact fireN_mem_undoStack MAX_UNDO _ _
      (by simp [fireChangeListener, unshiftNoArgs, MAX_UNDO])

/-- C9: lookups with an unknown key return the null sentinel rather than
throwing: `getBlockById` for an unregistered id, `getField` and
`getFieldValue` for an unknown field name, `getInput` and
`getInputTargetBlock` for an unknown input name. -/
theorem C9_theorem (w : Workspace9) (b : Block9) (id fname iname : String)
    (h1 : ∀ p ∈ w.blockDB, p.1 ≠ id)
    (h2 : ∀ input ∈ b.inputList, ∀ f ∈ input.fieldRow, f.name ≠ some fname)
    (h3 : ∀ input ∈ b.inputList, input.name ≠ iname) :
    getBlockById w id = none ∧ getField b fname = none ∧
    getFieldValue b fname = none ∧ getInput b iname = none ∧
    getInputTargetBlock b iname = none := by
  have hb : getBlockById w id = none := by
    have hf : w.blockDB.find? (fun p => p.1 = id) = none := by
      rw [List.find?_eq_none]
      intro p hp
      simp [h1 p hp]
    simp [getBlockById, hf]
  have hfield : getField b fname = none := by
    unfold getField
    rw [List.findSome?_eq_none_iff]
    intro input hin
    rw [List.find?_eq_none]
    intro f hfm
    simp [h2 input hin f hfm]
  have hinput : getInput b iname = none := by
    unfold getInput
    rw [List.find?_eq_none]
    intro input hin
    simp [h3 input hin]
  refine ⟨hb, hfield, ?_, hinput, ?_⟩
  · simp [getFieldValue, hfield]
  · simp [getInputTargetBlock, hinput]

/-- C9 witness: a concrete workspace and block on which every unknown-key
lookup returns the null sentinel. -/
theorem C9_theorem_witness :
    getBlockById ⟨[("a", 1)]⟩ "b" = none ∧
    getField ⟨[⟨"IN", [⟨some "F", "v"⟩], some none⟩]⟩ "G" = none ∧
    getFieldValue ⟨[⟨"IN", [⟨some "F", "v"⟩], some none⟩]⟩ "G" = none ∧
    getInput ⟨[⟨"IN", [⟨some "F", "v"⟩], some none⟩]⟩ "JN" = none ∧
    getInputTargetBlock ⟨[⟨"IN", [⟨some "F", "v"⟩], some none⟩]⟩ "JN" = none :=
  C9_theorem ⟨[("a", 1)]⟩ ⟨[⟨"IN", [⟨some "F", "v"⟩], some none⟩]⟩ "b" "G" "JN"
    (by decide) (by decide) (by decide)

/-- Helper for C10: the length of the fold concatenating all registered ids
onto an accumulator. -/
theorem foldl_append_ids_length (l : List (String × Nat)) (acc : String) :
    (l.foldl (fun a p => a ++ p.1) acc).length
      = acc.length + (l.map (fun p => p.1.length)).sum := by
  induction l generalizing acc with
  | nil => simp
  | cons x t ih =>
    rw [List.foldl_cons, ih]
    simp [String.length_append]
    omega

/-- Helper for C10: the generated id is strictly longer than every
registered id, hence not registered. -/
theorem genUid_not_registered (w : Workspace10) :
    getBlockById10 w (genUid w) = none := by
  have hfind : w.blockDB.find? (fun p => p.1 = genUid w) = none := by
    rw [List.find?_eq_none]
    intro p hp
    simp only [decide_eq_true_eq]
    intro hcontra
    have hlen : (genUid w).length
        = 1 + (w.blockDB.map (fun p => p.1.length)).sum := by
      unfold genUid
      rw [foldl_append_ids_length]
      rfl
    have hmem : p.1.length ∈ w.blockDB.map (fun p => p.1.length) :=
      List.mem_map_of_mem _ hp
    have hle : p.1.length ≤ (w.blockDB.map (fun p => p.1.length)).sum :=
      List.single_le_sum (fun x _ => Nat.zero_le x) _ hmem
    have : p.1.length = (genUid w).length := by rw [hcontra]
    omega
  simp [getBlockById10, hfind]

/-- C10 counterexample: an empty-string id is supplied and no block with
that id is registered, yet the created block does not receive it (JS
truthiness at src/core/block.js line 69 routes any falsy `opt_id`,
including the empty string, to the generated-id branch). -/
theorem C10_counterexample :
    getBlockById10 ⟨[], []⟩ "" = none ∧
    (newBlock ⟨[], []⟩ (some "")).2 ≠ "" := by
  constructor
  · rfl
  · intro hcontra
    have : (newBlock ⟨[], []⟩ (some "")).2 = "u" := rfl
    rw [this] at hcontra
    exact absurd hcontra (by decide)

/-- C10 (amended): a supplied non-empty id that is not currently registered
becomes the new block's id; otherwise (id omitted, empty, or already
taken) the block receives the generated id, which is never already
registered; in every case the block is registered in `blockDB_` under its
id and appended to the top-blocks list. -/
theorem C10_theorem (w : Workspace10) (optId : Option String) :
    (∀ s, optId = some s → s ≠ "" → getBlockById10 w s = none →
        (newBlock w optId).2 = s) ∧
    ((optId = none ∨ ∃ s, optId = some s ∧ (s = "" ∨ (getBlockById10 w s).isSome)) →
        (newBlock w optId).2 = genUid w ∧
        getBlockById10 w (newBlock w optId).2 = none) ∧
    getBlockById10 (newBlock w optId).1 (newBlock w optId).2 = some 0 ∧
    (newBlock w optId).1.topBlocks = w.topBlocks ++ [(newBlock w optId).2] := by
  refine ⟨?_, ?_, ?_, ?_⟩
  · intro s hs hne hnone
    subst hs
    simp [newBlock, hne, hnone]
  · intro hcase
    have hgen : (newBlock w optId).2 = genUid w := by
      rcases hcase with h | ⟨s, hs, hcond⟩
      · subst h; rfl
      · subst hs
        rcases hcond with h | h
        · subst h; simp [newBlock]
        · simp [newBlock]
          intro _
          simp [Option.isSome_iff_exists] at h
          obtain ⟨x, hx⟩ := h
          simp [hx]
    exact ⟨hgen, by rw [hgen]; exact genUid_not_registered w⟩
  · simp [newBlock, getBlockById10]
  · rfl

/-- C10 witness: the amended theorem instantiated on an empty workspace with
a supplied non-empty id. -/
theorem C10_theorem_witness :
    (newBlock ⟨[], []⟩ (some "b")).2 = "b" ∧
    getBlockById10 (newBlock ⟨[], []⟩ (some "b")).1 (newBlock ⟨[], []⟩ (some "b")).2
      = some 0 ∧
    (newBlock ⟨[], []⟩ (some "b")).1.topBlocks
      = [] ++ [(newBlock ⟨[], []⟩ (some "b")).2] := by
  have h := C10_theorem ⟨[], []⟩ (some "b")
  exact ⟨h.1 "b" rfl (by decide) (by decide), h.2.2.1, h.2.2.2⟩

/-- Helper for C8: flatMap respects pointwise-equal functions on members. -/
theorem flatMap_congr_mem (l : List Nat) (f g : Nat → List Nat)
    (h : ∀ x ∈ l, f x = g x) : l.flatMap f = l.flatMap g := by
  induction l with
  | nil => rfl
  | cons a t ih =>
    rw [List.flatMap_cons, List.flatMap_cons, h a (by simp),
      ih (fun x hx => h x (by simp [hx]))]

/-- Helper for C8: on a children relation certified acyclic by a rank
function, the result of `getDescendantsF` does not depend on the fuel once
the fuel exceeds the root's rank (so the unbounded source recursion
terminates there). -/
theorem getDescendantsF_fuel_sufficient (children : Nat → List Nat)
    (rank : Nat → Nat) (hacy : ∀ b c, c ∈ children b → rank c < rank b) :
    ∀ fuel b, rank b < fuel →
      getDescendantsF children fuel b = getDescendantsF children (rank b + 1) b := by
  intro fuel
  induction fuel using Nat.strong_induction_on with
  | _ fuel ih =>
    intro b hb
    match fuel, hb with
    | n + 1, hb =>
      rw [getDescendantsF, getDescendantsF]
      refine congrArg _ ?_
      apply flatMap_congr_mem
      intro c hc
      have hcb := hacy b c hc
      have e1 : getDescendantsF children n c
          = getDescendantsF children (rank c + 1) c :=
        ih n (by omega) c (by omega)
      have e2 : getDescendantsF children (rank b) c
          = getDescendantsF children (rank c + 1) c :=
        ih (rank b) (by omega) c (by omega)
      rw [e1, e2]

/-- C8 counterexample: on a malformed children relation where blocks 1 and
2 share the child 3, `getDescendants` of block 0 lists block 3 twice (the
source at src/core/block.js lines 543-549 has no revisit protection), so
the traversal does not avoid listing a block twice. -/
theorem C8_counterexample :
    getDescendantsF sharedChildRel 4 0 = [0, 1, 3, 2, 3] ∧
    ¬ (getDescendantsF sharedChildRel 4 0).Nodup := by
  constructor
  · rfl
  · decide

/-- C8 (amended): `getDescendants` returns the depth-first pre-order
traversal of the children relation starting at and including the block
itself, and it terminates on an acyclic relation: for any rank function
certifying acyclicity, all sufficiently large fuels give the same list,
and that list satisfies the source's fuel-free recursion (self first,
followed by the children's traversals in order).  The defensive
no-revisit part of the original claim is dropped: a shared child is
listed once per occurrence. -/
theorem C8_theorem (children : Nat → List Nat) (rank : Nat → Nat)
    (hacy : ∀ b c, c ∈ children b → rank c < rank b)
    (b fuel fuel2 : Nat) (h1 : rank b < fuel) (h2 : rank b < fuel2) :
    getDescendantsF children fuel b = getDescendantsF children fuel2 b ∧
    getDescendantsF children fuel b
      = b :: (children b).flatMap (fun c => getDescendantsF children fuel c) := by
  constructor
  · rw [getDescendantsF_fuel_sufficient children rank hacy fuel b h1,
      getDescendantsF_fuel_sufficient children rank hacy fuel2 b h2]
  · match fuel, h1 with
    | n + 1, h1 =>
      rw [getDescendantsF]
      refine congrArg _ ?_
      apply flatMap_congr_mem
      intro c hc
      have hcb := hacy b c hc
      rw [getDescendantsF_fuel_sufficient children rank hacy n c (by omega),
        getDescendantsF_fuel_sufficient children rank hacy (n + 1) c (by omega)]

/-- C8 witness: the amended theorem instantiated on the one-edge relation
0 → 1 with rank 0 ↦ 1, 1 ↦ 0, at fuels 2 and 3. -/
theorem C8_theorem_witness :
    getDescendantsF (fun b => if b = 0 then [1] else []) 2 0
      = getDescendantsF (fun b => if b = 0 then [1] else []) 3 0 ∧
    getDescendantsF (fun b => if b = 0 then [1] else []) 2 0
      = 0 :: ((fun b => if b = 0 then [1] else []) 0).flatMap
          (fun c => getDescendantsF (fun b => if b = 0 then [1] else []) 2 c) :=
  C8_theorem (fun b => if b = 0 then [1] else [])
    (fun b => if b = 0 then 1 else 0)
    (by intro b c hc
        by_cases hb : b = 0
        · subst hb
          simp at hc
          subst hc
          simp
        · simp [hb] at hc)
    0 2 3 (by decide) (by decide)

/-- Helper for C2: closed form of `unplug` with healing on the three-block
stack, by cases on the type-check between P's next end and R's previous
end. -/
theorem unplug_stack3 (pn qp qn rp : Option (List String)) :
    unplug (stack3 pn qp qn rp) 1 true =
      (if checkTypeB pn rp then
        [ ⟨none, none, some ⟨pn, some (2, Slot.prev)⟩⟩,
          ⟨none, some ⟨qp, none⟩, some ⟨qn, none⟩⟩,
          ⟨none, some ⟨rp, some (0, Slot.next)⟩, none⟩ ]
      else
        [ ⟨none, none, some ⟨pn, none⟩⟩,
          ⟨none, some ⟨qp, none⟩, some ⟨qn, none⟩⟩,
          ⟨none, some ⟨rp, none⟩, none⟩ ]) := by
  cases h : checkTypeB pn rp <;>
    simp [unplug, stack3, disconnectC, getConn, setTarget, connectC, h]

/-- C2: on a stack P → Q → R joined via previous/next connections,
`Q.unplug(true)` disconnects Q from both neighbours, and then joins P's
freed next-side end directly to R's previous end exactly when the
type-check between those two ends succeeds; when it fails, both ends are
left unconnected. -/
theorem C2_theorem (pn qp qn rp : Option (List String)) :
    (getConn (unplug (stack3 pn qp qn rp) 1 true) (1, Slot.prev)).bind
        (fun c => c.target) = none ∧
    (getConn (unplug (stack3 pn qp qn rp) 1 true) (1, Slot.next)).bind
        (fun c => c.target) = none ∧
    (checkTypeB pn rp = true →
      (getConn (unplug (stack3 pn qp qn rp) 1 true) (0, Slot.next)).bind
          (fun c => c.target) = some (2, Slot.prev) ∧
      (getConn (unplug (stack3 pn qp qn rp) 1 true) (2, Slot.prev)).bind
          (fun c => c.target) = some (0, Slot.next)) ∧
    (checkTypeB pn rp = false →
      (getConn (unplug (stack3 pn qp qn rp) 1 true) (0, Slot.next)).bind
          (fun c => c.target) = none ∧
      (getConn (unplug (stack3 pn qp qn rp) 1 true) (2, Slot.prev)).bind
          (fun c => c.target) = none) := by
  rw [unplug_stack3]
  cases h : checkTypeB pn rp <;> simp [getConn]

/-- C2 witness: the theorem instantiated with all four compatibility
filters null, where the type-check succeeds and the stack heals. -/
theorem C2_theorem_witness :
    (getConn (unplug (stack3 none none none none) 1 true) (1, Slot.prev)).bind
        (fun c => c.target) = none ∧
    (getConn (unplug (stack3 none none none none) 1 true) (0, Slot.next)).bind
        (fun c => c.target) = some (2, Slot.prev) ∧
    (getConn (unplug (stack3 none none none none) 1 true) (2, Slot.prev)).bind
        (fun c => c.target) = some (0, Slot.next) := by
  have h := C2_theorem none none none none
  exact ⟨h.1, (h.2.2.1 (by decide)).1, (h.2.2.1 (by decide)).2⟩

/-- Helper for C3: the popping loop equals takeWhile/dropWhile on the same
group, and pops nothing for the empty group id. -/
theorem popSameGroup_eq (grp : String) (l : List Ev3) :
    popSameGroup grp l =
      (if grp = "" then ([], l)
       else (l.takeWhile (fun e => e.group == grp),
             l.dropWhile (fun e => e.group == grp))) := by
  induction l with
  | nil => by_cases hg : grp = "" <;> simp [popSameGroup, hg]
  | cons e t ih =>
    by_cases hg : grp = ""
    · simp [popSameGroup, hg]
    · by_cases he : e.group = grp
      · rw [popSameGroup]
        simp only [hg, he, ih, List.takeWhile_cons, List.dropWhile_cons]
        simp [hg, he]
      · rw [popSameGroup]
        simp only [List.takeWhile_cons, List.dropWhile_cons]
        simp [hg, he]

/-- Helper for C3: folding cons over a list prepends its reverse. -/
theorem foldl_cons_rev (l acc : List Ev3) :
    l.foldl (fun st e => e :: st) acc = l.reverse ++ acc := by
  induction l generalizing acc with
  | nil => rfl
  | cons a t ih => simp [List.foldl_cons, ih]

/-- Helper for C3: replaying a batch appends one log entry per event, each
carrying the `recordUndo` flag in force when the replay started, and
leaves the flag and the stacks unchanged. -/
theorem foldl_runEvent_eq (events : List Ev3) (w : WS3) (fwd : Bool) :
    events.foldl (fun st e => runEvent st e fwd) w
      = { w with runLog := w.runLog
            ++ events.map (fun e => (e, fwd, w.recordUndo)) } := by
  induction events generalizing w with
  | nil => simp
  | cons a t ih =>
    rw [List.foldl_cons, ih]
    simp [runEvent]

/-- C3: `undo(redo)` pops the top event of the source stack (undo stack
when `redo` is false, redo stack when `redo` is true) together with all
immediately preceding events sharing its non-empty group id, pushes
exactly those popped events onto the opposite stack, and replays each of
them via `run(redo)` with recording disabled during the replay; an empty
source stack leaves the state untouched. -/
theorem C3_theorem (w : WS3) (redo : Bool) :
    ((if redo then w.redoStack else w.undoStack) = [] → undoW w redo = w) ∧
    (∀ e rest, (if redo then w.redoStack else w.undoStack) = e :: rest →
      (if redo then (undoW w redo).redoStack else (undoW w redo).undoStack)
        = (if e.group = "" then rest
           else rest.dropWhile (fun x => x.group == e.group)) ∧
      (if redo then (undoW w redo).undoStack else (undoW w redo).redoStack)
        = (e :: (if e.group = "" then []
            else rest.takeWhile (fun x => x.group == e.group))).reverse
          ++ (if redo then w.undoStack else w.redoStack) ∧
      (undoW w redo).runLog
        = w.runLog ++ (e :: (if e.group = "" then []
            else rest.takeWhile (fun x => x.group == e.group))).map
          (fun ev => (ev, redo, false)) ∧
      (undoW w redo).recordUndo = true) := by
  cases redo with
  | false =>
    simp only [Bool.false_eq_true, if_false]
    constructor
    · intro h
      unfold undoW
      simp [h]
    · intro e rest h
      unfold undoW
      simp only [Bool.false_eq_true, if_false, h]
      rw [popSameGroup_eq]
      by_cases hg : e.group = ""
      · simp [hg, foldl_cons_rev, foldl_runEvent_eq, eventsFilter]
        simp [runEvent]
      · simp [hg, foldl_cons_rev, foldl_runEvent_eq, eventsFilter]
        simp [runEvent]
  | true =>
    simp only [if_pos]
    constructor
    · intro h
      unfold undoW
      simp [h]
    · intro e rest h
      unfold undoW
      simp only [if_pos, h]
      rw [popSameGroup_eq]
      by_cases hg : e.group = ""
      · simp [hg, foldl_cons_rev, foldl_runEvent_eq, eventsFilter]
        simp [runEvent]
      · simp [hg, foldl_cons_rev, foldl_runEvent_eq, eventsFilter]
        simp [runEvent]

/-- C3 witness: undoing once on a workspace whose undo stack holds two
events of group "g" above one ungrouped event pops and replays both
grouped events, moves them to the redo stack, and leaves the ungrouped
event behind. -/
theorem C3_theorem_witness :
    (undoW ⟨[⟨"g", 1⟩, ⟨"g", 2⟩, ⟨"", 3⟩], [], true, []⟩ false).undoStack
      = [⟨"", 3⟩] ∧
    (undoW ⟨[⟨"g", 1⟩, ⟨"g", 2⟩, ⟨"", 3⟩], [], true, []⟩ false).redoStack
      = [⟨"g", 2⟩, ⟨"g", 1⟩] ∧
    (undoW ⟨[⟨"g", 1⟩, ⟨"g", 2⟩, ⟨"", 3⟩], [], true, []⟩ false).runLog
      = [(⟨"g", 1⟩, false, false), (⟨"g", 2⟩, false, false)] ∧
    (undoW ⟨[⟨"g", 1⟩, ⟨"g", 2⟩, ⟨"", 3⟩], [], true, []⟩ false).recordUndo
      = true := by
  have h := ( C3_theorem ⟨[⟨"g", 1⟩, ⟨"g", 2⟩, ⟨"", 3⟩], [], true, []⟩ false).2
    ⟨"g", 1⟩ [⟨"g", 2⟩, ⟨"", 3⟩] rfl
  refine ⟨?_, ?_, ?_, h.2.2.2⟩
  · have h1 := h.1
    simpa using h1
  · have h2 := h.2.1
    simpa using h2
  · have h3 := h.2.2.1
    simpa using h3

/-- Helper for C5: the child-disposal loop runs with events disabled, so no
Delete event is fired anywhere inside it. -/
theorem disposeChildren_no_fireDelete :
    ∀ (bs : List Blk5) (reg : List Nat) (j : Nat),
      Act.fireDelete j ∉ (disposeChildren bs reg).2 := by
  intro bs reg
  refine disposeChildren.induct
    (fun ee hs b reg => ee = false →
      ∀ j, Act.fireDelete j ∉ (dispose ee hs b reg).2.2)
    (fun bs reg => ∀ j, Act.fireDelete j ∉ (disposeChildren bs reg).2)
    ?_ ?_ ?_ ?_ bs reg
  · intro ee hs reg i cs ih hee j
    subst hee
    simp only [dispose, if_pos]
    simp
    exact ih j
  · intro ee hs reg i hasWs cs hws hee j
    simp [dispose, hws]
  · intro reg j
    simp [disposeChildren]
  · intro reg c rest r1 ih1 ih2 j
    simp only [disposeChildren]
    simp
    exact ⟨ih1 j, ih2 rfl j⟩

/-- C5 counterexample: for a block 0 with one child 1, the claimed order
(children first, then own connections/inputs, then deregistration, then
the Delete event last) is violated by the actual dispose trace, where the
Delete event fires first and deregistration precedes child disposal
(src/core/block.js lines 280-318). -/
theorem C5_counterexample :
    ¬ (idxOf (Act.deregister 1)
          (dispose true false (Blk5.node 0 true [Blk5.node 1 true []]) [0, 1]).2.2
        < idxOf (Act.disposeConns 0)
          (dispose true false (Blk5.node 0 true [Blk5.node 1 true []]) [0, 1]).2.2 ∧
       idxOf (Act.disposeConns 0)
          (dispose true false (Blk5.node 0 true [Blk5.node 1 true []]) [0, 1]).2.2
        < idxOf (Act.deregister 0)
          (dispose true false (Blk5.node 0 true [Blk5.node 1 true []]) [0, 1]).2.2 ∧
       idxOf (Act.deregister 0)
          (dispose true false (Blk5.node 0 true [Blk5.node 1 true []]) [0, 1]).2.2
        < idxOf (Act.fireDelete 0)
          (dispose true false (Blk5.node 0 true [Blk5.node 1 true []]) [0, 1]).2.2) := by
  have htr : (dispose true false (Blk5.node 0 true [Blk5.node 1 true []]) [0, 1]).2.2
      = [Act.unplugStep 0 false, Act.fireDelete 0, Act.deregister 0,
         Act.unplugStep 1 false, Act.deregister 1, Act.disposeInputs 1,
         Act.disposeConns 1, Act.disposeInputs 0, Act.disposeConns 0] := by
    simp [dispose, disposeChildren]
  rw [htr]
  decide

/-- C5 (amended): `dispose` on a registered block performs, in order:
unplug, fire the Delete event (when events are enabled), deregister the
block from the workspace, dispose the children (from the last child
backwards, with event firing disabled so no further Delete fires), then
dispose the block's own inputs, then its own connections; exactly one
Delete event for the disposed block appears in the whole trace and none
for any other block. -/
theorem C5_theorem (i : Nat) (cs : List Blk5) (reg : List Nat) (heal : Bool) :
    (dispose true heal (Blk5.node i true cs) reg).2.2
      = Act.unplugStep i heal :: Act.fireDelete i :: Act.deregister i ::
          ((disposeChildren cs (reg.erase i)).2
            ++ [Act.disposeInputs i, Act.disposeConns i]) ∧
    ((dispose true heal (Blk5.node i true cs) reg).2.2).count (Act.fireDelete i) = 1 ∧
    (∀ j, j ≠ i →
      Act.fireDelete j ∉ (dispose true heal (Blk5.node i true cs) reg).2.2) := by
  have htr : (dispose true heal (Blk5.node i true cs) reg).2.2
      = Act.unplugStep i heal :: Act.fireDelete i :: Act.deregister i ::
          ((disposeChildren cs (reg.erase i)).2
            ++ [Act.disposeInputs i, Act.disposeConns i]) := by
    simp [dispose]
  refine ⟨htr, ?_, ?_⟩
  · rw [htr]
    simp [List.count_cons, List.count_append,
      List.count_eq_zero.mpr (disposeChildren_no_fireDelete cs (reg.erase i) i)]
  · intro j hj
    rw [htr]
    simp [hj]
    exact disposeChildren_no_fireDelete cs (reg.erase i) j

/-- C6: `dispose` is idempotent: a second dispose of an already disposed
block performs no step (fires no second Delete event) and leaves the block
and the workspace registry exactly as the first dispose left them. -/
theorem C6_theorem (e1 h1 e2 h2 : Bool) (b : Blk5) (reg : List Nat) :
    dispose e2 h2 (dispose e1 h1 b reg).1 (dispose e1 h1 b reg).2.1
      = ((dispose e1 h1 b reg).1, (dispose e1 h1 b reg).2.1, []) := by
  match b with
  | .node i hasWs cs =>
    cases hasWs
    · simp [dispose]
    · simp [dispose]

/-- Helper for C7: reading a position after a positional update. -/
theorem updateAt_getElem (l : List α) (i j : Nat) (f : α → α) :
    (updateAt l i f)[j]? = if i = j then (l[j]?).map f else l[j]? := by
  unfold updateAt
  by_cases hij : i = j
  · subst hij
    cases h : l[i]? with
    | none => simp [h]
    | some a =>
      simp only [if_pos rfl]
      rw [List.getElem?_set_self', h]
      rfl
  · cases h : l[i]? with
    | none => simp [h, hij]
    | some a => simp [hij, List.getElem?_set_ne hij]

/-- Helper for C7: the heap read of `updateBlk`. -/
theorem updateBlk_blocks (s : St7) (i j : Nat) (f : Blk7 → Blk7) :
    (updateBlk s i f).blocks[j]?
      = if i = j then (s.blocks[j]?).map f else s.blocks[j]? :=
  updateAt_getElem s.blocks i j f

/-- Helper for C7: `updateBlk` leaves the top-blocks list alone. -/
theorem updateBlk_topBlocks (s : St7) (i : Nat) (f : Blk7 → Blk7) :
    (updateBlk s i f).topBlocks = s.topBlocks := rfl

/-- C7: `setParent(newParent)` is a no-op returning successfully when
`newParent` equals the current parent; otherwise, on a block whose
parent/children and connection state agree (an attached previous or output
connection implies a parent, a parentless block is among the top blocks,
and no block is its own parent), it throws exactly when the previous or
output connection is still attached, and on success it removes the block
from the old parent's children list (or from the top-blocks list when it
had no parent) and appends it to the new parent's children list (or to the
top-blocks list when `newParent` is null). -/
theorem C7_theorem (s : St7) (bid : Nat) (b : Blk7) (newParent : Option Nat)
    (hb : s.blocks[bid]? = some b)
    (hconn : b.prevConnected = true ∨ b.outConnected = true → b.parentBlock ≠ none)
    (htop : b.parentBlock = none → bid ∈ s.topBlocks)
    (hselfp : b.parentBlock ≠ some bid)
    (hselfn : newParent ≠ some bid) :
    (newParent = b.parentBlock → setParent s bid newParent = Except.ok s) ∧
    (newParent ≠ b.parentBlock → (b.prevConnected = true ∨ b.outConnected = true) →
      ∃ msg, setParent s bid newParent = Except.error msg) ∧
    (newParent ≠ b.parentBlock → b.prevConnected = false → b.outConnected = false →
      ∃ s2, setParent s bid newParent = Except.ok s2 ∧
        (s2.blocks[bid]?).map (fun x => x.parentBlock) = some newParent ∧
        (∀ p pb, b.parentBlock = some p → s.blocks[p]? = some pb →
          (s2.blocks[p]?).map (fun x => x.childBlocks)
            = some (pb.childBlocks.erase bid)) ∧
        (∀ np npb, newParent = some np → s.blocks[np]? = some npb →
          (s2.blocks[np]?).map (fun x => x.childBlocks)
            = some (npb.childBlocks ++ [bid])) ∧
        (b.parentBlock = none → s2.topBlocks = s.topBlocks.erase bid) ∧
        (b.parentBlock ≠ none → newParent = none →
          s2.topBlocks = s.topBlocks ++ [bid]) ∧
        (b.parentBlock ≠ none → newParent ≠ none →
          s2.topBlocks = s.topBlocks)) := by
  refine ⟨?_, ?_, ?_⟩
  · intro heq
    unfold setParent
    rw [hb]
    simp [heq]
  · intro hne hcon
    unfold setParent
    rw [hb]
    simp only [if_neg hne]
    cases hp : b.parentBlock with
    | none => exact absurd hp (hconn hcon)
    | some p =>
      rcases hcon with hc | hc
      · refine ⟨"Still connected to previous block.", ?_⟩
        simp [hc]
      · cases hprev : b.prevConnected
        · refine ⟨"Still connected to parent block.", ?_⟩
          simp [hprev, hc]
        · refine ⟨"Still connected to previous block.", ?_⟩
          simp [hprev]
  · intro hne hpf hof
    unfold setParent
    rw [hb]
    simp only [if_neg hne]
    cases hp : b.parentBlock with
    | none =>
      have hmem : bid ∈ s.topBlocks := htop hp
      cases hnp : newParent with
      | none => exact absurd (hnp.trans hp.symm) hne
      | some np =>
        have hnpbid : np ≠ bid := fun h => hselfn (by rw [hnp, h])
        simp only [hmem, if_pos]
        refine ⟨_, rfl, ?_, ?_, ?_, ?_, ?_, ?_⟩
        · rw [updateBlk_blocks]
          simp only [if_neg hnpbid]
          rw [updateBlk_blocks]
          simp [hb]
        · intro p pb hpp
          exact fun _ => absurd hpp (by simp)
        · intro np' npb hnp' hnpb
          injection hnp' with hinj
          subst hinj
          rw [updateBlk_blocks]
          simp only [if_pos rfl]
          rw [updateBlk_blocks]
          simp only [if_neg (Ne.symm hnpbid)]
          simp [hnpb]
        · intro _
          rw [updateBlk_topBlocks, updateBlk_topBlocks]
        · intro hcontra
          exact absurd rfl hcontra
        · intro hcontra _
          exact absurd rfl hcontra
    | some p =>
      have hpbid : p ≠ bid := fun h => hselfp (by rw [hp, h])
      simp only [hpf, hof, Bool.false_eq_true, if_neg, if_false]
      cases hnp : newParent with
      | none =>
        refine ⟨_, rfl, ?_, ?_, ?_, ?_, ?_, ?_⟩
        · rw [updateBlk_blocks]
          simp only [if_pos rfl]
          rw [updateBlk_blocks]
          simp only [if_pos rfl]
          rw [updateBlk_blocks]
          simp only [if_neg hpbid]
          simp [hb]
        · intro p' pb hpp hppb
          injection hpp with hinj
          subst hinj
          rw [updateBlk_blocks]
          simp only [if_neg (Ne.symm hpbid)]
          rw [updateBlk_blocks]
          simp only [if_neg (Ne.symm hpbid)]
          rw [updateBlk_blocks]
          simp only [if_pos rfl]
          simp [hppb]
        · intro np npb hnp'
          exact fun _ => absurd hnp' (by simp)
        · intro hcontra
          exact absurd hcontra (by simp)
        · intro _ _
          rw [updateBlk_topBlocks, updateBlk_topBlocks, updateBlk_topBlocks]
        · intro _ hcontra
          exact absurd rfl hcontra
      | some np =>
        have hnpbid : np ≠ bid := fun h => hselfn (by rw [hnp, h])
        have hnpp : np ≠ p := by
          intro h
          exact hne (by rw [hnp, hp, h])
        refine ⟨_, rfl, ?_, ?_, ?_, ?_, ?_, ?_⟩
        · rw [updateBlk_blocks]
          simp only [if_neg hnpbid]
          rw [updateBlk_blocks]
          simp only [if_pos rfl]
          rw [updateBlk_blocks]
          simp only [if_pos rfl]
          rw [updateBlk_blocks]
          simp only [if_neg hpbid]
          simp [hb]
        · intro p' pb hpp hppb
          injection hpp with hinj
          subst hinj
          rw [updateBlk_blocks]
          simp only [if_neg hnpp]
          rw [updateBlk_blocks]
          simp only [if_neg (Ne.symm hpbid)]
          rw [updateBlk_blocks]
          simp only [if_neg (Ne.symm hpbid)]
          rw [updateBlk_blocks]
          simp only [if_pos rfl]
          simp [hppb]
        · intro np' npb hnp' hnpb
          injection hnp' with hinj
          subst hinj
          rw [updateBlk_blocks]
          simp only [if_pos rfl]
          rw [updateBlk_blocks]
          simp only [if_neg (Ne.symm hnpbid)]
          rw [updateBlk_blocks]
          simp only [if_neg (Ne.symm hnpbid)]
          rw [updateBlk_blocks]
          simp only [if_neg (Ne.symm hnpp)]
          simp [hnpb]
        · intro hcontra
          exact absurd hcontra (by simp)
        · intro _ hcontra
          exact absurd hcontra (by simp)
        · intro _ _
          rw [updateBlk_topBlocks, updateBlk_topBlocks, updateBlk_topBlocks,
            updateBlk_topBlocks]

/-- C7 witness: reparenting block 0 (child of block 1, with no attached
superior connection) to the top level succeeds, removes it from block 1's
children and appends it to the top-blocks list. -/
theorem C7_theorem_witness :
    ∃ s2,
      setParent ⟨[⟨some 1, [], false, false⟩, ⟨none, [0], false, false⟩], [1]⟩ 0 none
        = Except.ok s2 ∧
      (s2.blocks[0]?).map (fun x => x.parentBlock) = some none ∧
      (s2.blocks[1]?).map (fun x => x.childBlocks) = some (([0] : List Nat).erase 0) ∧
      s2.topBlocks = [1] ++ [0] := by
  have h := (C7_theorem
      ⟨[⟨some 1, [], false, false⟩, ⟨none, [0], false, false⟩], [1]⟩ 0
      ⟨some 1, [], false, false⟩ none rfl (by decide) (by decide) (by decide)
      (by decide)).2.2 (by decide) rfl rfl
  obtain ⟨s2, hok, hpar, hold, _, _, htb, _⟩ := h
  exact ⟨s2, hok, hpar, hold 1 ⟨none, [0], false, false⟩ rfl rfl,
    htb (by decide) rfl⟩

/-- C5 witness: the amended dispose-order theorem instantiated on a
childless registered block 0. -/
theorem C5_theorem_witness :
    (dispose true false (Blk5.node 0 true []) []).2.2
      = Act.unplugStep 0 false :: Act.fireDelete 0 :: Act.deregister 0 ::
          ((disposeChildren [] (([] : List Nat).erase 0)).2
            ++ [Act.disposeInputs 0, Act.disposeConns 0]) ∧
    ((dispose true false (Blk5.node 0 true []) []).2.2).count (Act.fireDelete 0) = 1 ∧
    Act.fireDelete 1 ∉ (dispose true false (Blk5.node 0 true []) []).2.2 := by
  have h := C5_theorem 0 [] [] false
  exact ⟨h.1, h.2.1, h.2.2 1 (by decide)⟩
